import Mathlib

/-!
# Verification of the USearch binding layer

Shallow embedding of the two binding files of the repository:
`src/javascript/lib.cpp` (N-API binding) and `src/rust/lib.cpp` (cxx
binding).  The external engine (`usearch/index_dense.hpp`) is not part of
the repository sources; its operations are modelled from the spec's
black-box interface description (each such definition is marked
"Modelled from the spec").  The binding functions themselves are
translated line by line from the two C++ files.
-/

namespace USearch

/-- Modelled from the spec: the black-box engine state.  The engine owns a
set of live keys (uniqueness enforced by the engine), a fixed
dimensionality, and a reserved capacity.  `ioError` models the engine's
disposition to fail persistence operations (save/load/view) with a
message, which is opaque to the binding layer. -/
structure Engine where
  dims : Nat
  keys : List Nat
  cap : Nat
  ioError : Option String
deriving Repr, DecidableEq

def Engine.size (e : Engine) : Nat := e.keys.length

def Engine.capacity (e : Engine) : Nat := e.cap

def Engine.dimensions (e : Engine) : Nat := e.dims

def Engine.contains (e : Engine) (key : Nat) : Bool := e.keys.contains key

/-- Result object for `add` and for the persistence calls: an optional
error message. -/
structure EngineResult where
  error : Option String
deriving Repr, DecidableEq

/-- Result object for `remove`/`rename`: optional error plus the
`completed` flag (`false` = key not found, a valid non-error outcome). -/
structure LabelingResult where
  error : Option String
  completed : Bool
deriving Repr, DecidableEq

/-- Result object for `search`: optional error plus the matches, each a
(key, distance) pair. -/
structure EngineSearchResult where
  error : Option String
  matched : List (Nat × Int)
deriving Repr, DecidableEq

/-- Fuel-driven helper for `ceil2`: doubles `acc` until it reaches `n`. -/
def ceil2From : Nat → Nat → Nat → Nat
  | 0, _, acc => acc
  | fuel + 1, n, acc => if n ≤ acc then acc else ceil2From fuel n (2 * acc)

/-- Modelled from the spec: `ceil2` (usearch `index.hpp`, not under
`src/`) — the next-power-of-two growth policy: the smallest power of two
that is `≥ n` (and `0` for `n = 0`, as the bit-twiddling C version
computes modulo `2^64`). -/
def ceil2 (n : Nat) : Nat := if n = 0 then 0 else ceil2From n n 1

/-- Modelled from the spec: `reserve(capacity)` grows the engine's
reserved capacity; `allocOk` models whether the underlying allocation
succeeds.  On failure the engine is unchanged and `false` is reported. -/
def Engine.reserve (e : Engine) (n : Nat) (allocOk : Bool) : Bool × Engine :=
  if allocOk then (true, { e with cap := n }) else (false, e)

/-- Modelled from the spec: `add(key, vector) -> result`.  Succeeds and
appends the key when there is reserved capacity and the key is fresh
(the engine enforces key uniqueness); otherwise reports an error in the
result object. -/
def Engine.add (e : Engine) (key : Nat) (_vec : List Int) : EngineResult × Engine :=
  if e.keys.length < e.cap then
    if e.keys.contains key then ({ error := some "Duplicate keys not allowed" }, e)
    else ({ error := none }, { e with keys := e.keys ++ [key] })
  else ({ error := some "Reserve capacity ahead of insertions" }, e)

/-- Modelled from the spec: `remove(key) -> result`.  `completed = false`
when the key is absent (not an error); removes the key and reports
`completed = true` when present. -/
def Engine.remove (e : Engine) (key : Nat) : LabelingResult × Engine :=
  if e.keys.contains key then
    ({ error := none, completed := true }, { e with keys := e.keys.erase key })
  else ({ error := none, completed := false }, e)

/-- Modelled from the spec: `search(vector, k) -> result` produces at most
`k` matches (key, distance), `count ≤ k`. -/
def Engine.search (e : Engine) (_vec : List Int) (k : Nat) : EngineSearchResult :=
  { error := none, matched := (e.keys.take k).map (fun key => (key, 0)) }

/-- Modelled from the spec: `result.dump_to(keys, distances)` writes the
matches into the two pre-allocated buffers and returns the actual match
count; entries of the buffers beyond the count keep their prior values. -/
def EngineSearchResult.dump_to (r : EngineSearchResult)
    (keysBuf : List Nat) (distBuf : List Int) : Nat × List Nat × List Int :=
  (r.matched.length,
   r.matched.map Prod.fst ++ keysBuf.drop r.matched.length,
   r.matched.map Prod.snd ++ distBuf.drop r.matched.length)

/-- Modelled from the spec: `save(path) -> result` (serialization outcome
opaque to the binding; the engine state is unchanged). -/
def Engine.save (e : Engine) (_path : String) : EngineResult := { error := e.ioError }

/-- Modelled from the spec: `load(path) -> result`. -/
def Engine.load (e : Engine) (_path : String) : EngineResult := { error := e.ioError }

/-- Modelled from the spec: `view(path) -> result`. -/
def Engine.view (e : Engine) (_path : String) : EngineResult := { error := e.ioError }

/-- Trace entry: one invocation of the external engine by the binding. -/
inductive EngineCall where
  | reserveC (n : Nat)
  | addC (key : Nat) (vec : List Int)
  | searchC (vec : List Int) (k : Nat)
  | removeC (key : Nat)
  | saveC (path : String)
  | loadC (path : String)
  | viewC (path : String)
deriving Repr, DecidableEq

/-! ## JavaScript binding (`src/javascript/lib.cpp`) -/

/-- `BigInt::Uint64Value(&lossless)`: the conversion is lossless exactly
when the integer is representable as an unsigned 64-bit value. -/
def uint64Lossless (n : Int) : Prop := 0 ≤ n ∧ n < 2 ^ 64

instance (n : Int) : Decidable (uint64Lossless n) := by
  unfold uint64Lossless; infer_instance

/-- Outcome of a JS call that may mutate the engine: the engine after the
call, the JS exceptions thrown (in order), and the trace of engine
invocations made. -/
structure JsOutcome where
  engine : Engine
  errors : List String
  calls : List EngineCall
deriving Repr, DecidableEq

/-- The `add` lambda of `Index::Add` (lib.cpp:215-237): validates key
losslessness, then the vector length against the index dimensionality
captured at entry, then invokes the engine's `add` and surfaces its error
message if any. -/
def jsAddOne (indexDimensions : Nat) (key : Int) (vec : List Int) (e : Engine) : JsOutcome :=
  if ¬ uint64Lossless key then ⟨e, ["Keys must be unsigned integers"], []⟩
  else if vec.length ≠ indexDimensions then ⟨e, ["Wrong number of dimensions"], []⟩
  else
    let r := e.add key.toNat vec
    match r.1.error with
    | some m => ⟨r.2, [m], [.addC key.toNat vec]⟩
    | none => ⟨r.2, [], [.addC key.toNat vec]⟩

/-- The batch loop of `Index::Add` (lib.cpp:252-256): each element is
handed to the `add` lambda in order; an element's thrown error does not
stop the loop. -/
def jsAddLoop (indexDimensions : Nat) (pairs : List (Int × List Int)) (e : Engine) : JsOutcome :=
  match pairs with
  | [] => ⟨e, [], []⟩
  | (k, v) :: rest =>
    let o := jsAddOne indexDimensions k v e
    let o2 := jsAddLoop indexDimensions rest o.engine
    ⟨o2.engine, o.errors ++ o2.errors, o.calls ++ o2.calls⟩

/-- Argument shapes accepted by `Index::Add` after N-API dispatch
(lib.cpp:209, 239, 258, 262): two arrays (batch), a BigInt and a typed
array (single), fewer than two arguments, or any other type combination. -/
inductive AddArgs where
  | batch (keys : List Int) (vectors : List (List Int))
  | single (key : Int) (vector : List Int)
  | badType
  | tooFew
deriving Repr, DecidableEq

/-- `Index::Add` (lib.cpp:206-265).  Batch path: equal-length check, then
a single capacity reservation (checked, `"Out of memory!"` on failure)
when `size + length >= capacity`, then the per-element loop.  Single
path: an unchecked reservation when `size + 1 >= capacity`, then one call
of the `add` lambda. -/
def jsAdd (allocOk : Bool) (e : Engine) (args : AddArgs) : JsOutcome :=
  match args with
  | .tooFew => ⟨e, ["Expects at least two arguments"], []⟩
  | .badType => ⟨e, ["Invalid argument type, expects integral key(s) and float vector(s)"], []⟩
  | .batch keys vectors =>
    if keys.length ≠ vectors.length then
      ⟨e, ["The number of keys must match the number of vectors"], []⟩
    else if e.size + keys.length ≥ e.capacity then
      let r := e.reserve (ceil2 (e.size + keys.length)) allocOk
      if ¬ r.1 then ⟨r.2, ["Out of memory!"], [.reserveC (ceil2 (e.size + keys.length))]⟩
      else
        let o := jsAddLoop e.dims (keys.zip vectors) r.2
        ⟨o.engine, o.errors, .reserveC (ceil2 (e.size + keys.length)) :: o.calls⟩
    else jsAddLoop e.dims (keys.zip vectors) e
  | .single key vector =>
    if e.size + 1 ≥ e.capacity then
      let r := e.reserve (ceil2 (e.size + 1)) allocOk
      let o := jsAddOne e.dims key vector r.2
      ⟨o.engine, o.errors, .reserveC (ceil2 (e.size + 1)) :: o.calls⟩
    else
      let o := jsAddOne e.dims key vector e
      ⟨o.engine, o.errors, o.calls⟩

/-- Argument shapes accepted by `Index::Search` (lib.cpp:269): a typed
array and a BigInt, or anything else. -/
inductive SearchArgs where
  | good (vector : List Int) (k : Int)
  | bad
deriving Repr, DecidableEq

/-- Outcome of `Index::Search`: the returned object (keys buffer,
distances buffer, count) when one is produced, plus thrown errors and the
engine-call trace.  `Search` never mutates the engine. -/
structure JsSearchOut where
  result : Option (List Nat × List Int × Nat)
  errors : List String
  calls : List EngineCall
deriving Repr, DecidableEq

/-- `Index::Search` (lib.cpp:267-316): validates argument shape, vector
length against dimensionality, and losslessness of `wanted`; allocates
the two zero-initialized output buffers of length `wanted`; invokes the
engine; surfaces an engine error, or dumps the matches into the buffers
and returns them (at their full length `wanted`) together with `count`. -/
def jsSearch (e : Engine) (args : SearchArgs) : JsSearchOut :=
  match args with
  | .bad => ⟨none, ["Expects a  and the number of wanted results"], []⟩
  | .good vector k =>
    if vector.length ≠ e.dimensions then ⟨none, ["Wrong number of dimensions"], []⟩
    else if ¬ uint64Lossless k then
      ⟨none, ["Wanted number of matches must be an unsigned integer"], []⟩
    else
      let wanted := k.toNat
      let matchesBuf : List Nat := List.replicate wanted 0
      let distancesBuf : List Int := List.replicate wanted 0
      let r := e.search vector wanted
      match r.error with
      | some m => ⟨none, [m], [.searchC vector wanted]⟩
      | none =>
        let dumped := r.dump_to matchesBuf distancesBuf
        ⟨some (dumped.2.1, dumped.2.2, dumped.1), [], [.searchC vector wanted]⟩

/-- Argument shapes for the key-taking calls `Remove`/`Contains`
(lib.cpp:320, 351): a BigInt, or anything else. -/
inductive KeyArgs where
  | key (k : Int)
  | bad
deriving Repr, DecidableEq

/-- Outcome of `Index::Remove`: engine after the call, the returned
boolean when one is produced, thrown errors, engine-call trace. -/
structure JsRemoveOut where
  engine : Engine
  result : Option Bool
  errors : List String
  calls : List EngineCall
deriving Repr, DecidableEq

/-- `Index::Remove` (lib.cpp:318-347): validates the argument, invokes
the engine's `remove`, surfaces an engine error, otherwise returns
`result.completed` as a boolean. -/
def jsRemove (e : Engine) (args : KeyArgs) : JsRemoveOut :=
  match args with
  | .bad => ⟨e, none, ["Expects an entry identifier"], []⟩
  | .key k =>
    if ¬ uint64Lossless k then ⟨e, none, ["Identifier must be an unsigned integer"], []⟩
    else
      let r := e.remove k.toNat
      match r.1.error with
      | some m => ⟨r.2, none, [m], [.removeC k.toNat]⟩
      | none => ⟨r.2, some r.1.completed, [], [.removeC k.toNat]⟩

/-- `Index::Contains` (lib.cpp:349-374): validates the argument and
returns the engine's membership bit; never mutates. -/
def jsContains (e : Engine) (args : KeyArgs) : Option Bool × List String :=
  match args with
  | .bad => (none, ["Expects an entry identifier"])
  | .key k =>
    if ¬ uint64Lossless k then (none, ["Identifier must be an unsigned integer"])
    else (some (e.contains k.toNat), [])

/-- Argument shapes for `Save`/`Load`/`View` (lib.cpp:150, 170, 190): a
string (of any content, the empty string included), a non-string value,
or no argument at all. -/
inductive PathArgs where
  | path (s : String)
  | nonstring
  | noArgs
deriving Repr, DecidableEq

/-- `Index::Save` (lib.cpp:146-164): requires some first argument that is
a string, then invokes the engine's `save` and surfaces its error. -/
def jsSave (e : Engine) (args : PathArgs) : List String × List EngineCall :=
  match args with
  | .noArgs => (["Function expects a string path argument"], [])
  | .nonstring => (["Function expects a string path argument"], [])
  | .path s =>
    match (e.save s).error with
    | some m => ([m], [.saveC s])
    | none => ([], [.saveC s])

/-- `Index::Load` (lib.cpp:166-184): same argument contract as `Save`,
invoking the engine's `load`. -/
def jsLoad (e : Engine) (args : PathArgs) : List String × List EngineCall :=
  match args with
  | .noArgs => (["Function expects a string path argument"], [])
  | .nonstring => (["Function expects a string path argument"], [])
  | .path s =>
    match (e.load s).error with
    | some m => ([m], [.loadC s])
    | none => ([], [.loadC s])

/-- `Index::View` (lib.cpp:186-204): same argument contract as `Save`,
invoking the engine's `view`. -/
def jsView (e : Engine) (args : PathArgs) : List String × List EngineCall :=
  match args with
  | .noArgs => (["Function expects a string path argument"], [])
  | .nonstring => (["Function expects a string path argument"], [])
  | .path s =>
    match (e.view s).error with
    | some m => ([m], [.viewC s])
    | none => ([], [.viewC s])

/-! ## Construction adapter (`Index::Index`, lib.cpp:71-131) -/

/-- The configuration bag read by the constructor: each option is present
or absent; numeric options carry the raw (possibly negative or oversized)
integer value of the BigInt, string options the raw name. -/
structure JsParams where
  dimensions : Option Int
  capacity : Option Int
  connectivity : Option Int
  expansion_add : Option Int
  expansion_search : Option Int
  quantization : Option String
  metric : Option String
deriving Repr, DecidableEq

/-- Constructor argument shapes (lib.cpp:75): exactly one object
argument, or anything else (zero arguments, two or more, non-object). -/
inductive CtorArgs where
  | params (p : JsParams)
  | bad
deriving Repr, DecidableEq

/-- Modelled from the spec: `scalar_kind_from_name` (usearch core, not
under `src/`).  The five recognized quantization names; anything else is
an error carrying a descriptive message. -/
def scalar_kind_from_name (s : String) : Option String :=
  if s = "f64" ∨ s = "f32" ∨ s = "f16" ∨ s = "i8" ∨ s = "b1" then some s else none

/-- Modelled from the spec: `metric_from_name` (usearch core, not under
`src/`).  The eight recognized metric names. -/
def metric_from_name (s : String) : Option String :=
  if s = "ip" ∨ s = "l2sq" ∨ s = "cos" ∨ s = "pearson" ∨ s = "haversine" ∨
     s = "hamming" ∨ s = "tanimoto" ∨ s = "sorensen" then some s else none

/-- Accumulated `lossless` flag of the constructor (lib.cpp:81-99): every
present numeric option must convert to `uint64` without loss. -/
def jsParamsLossless (p : JsParams) : Prop :=
  (∀ n, p.dimensions = some n → uint64Lossless n) ∧
  (∀ n, p.capacity = some n → uint64Lossless n) ∧
  (∀ n, p.connectivity = some n → uint64Lossless n) ∧
  (∀ n, p.expansion_add = some n → uint64Lossless n) ∧
  (∀ n, p.expansion_search = some n → uint64Lossless n)

instance (p : JsParams) : Decidable (jsParamsLossless p) := by
  unfold jsParamsLossless
  cases p.dimensions <;> cases p.capacity <;> cases p.connectivity <;>
    cases p.expansion_add <;> cases p.expansion_search <;>
    · simp; infer_instance

/-- `Index::Index` (lib.cpp:71-131): argument-shape check, lossless check
over all numeric options, quantization-name parse (default `f32`),
metric-name parse (default `ip`), then engine construction (`make`) and
the initial `reserve(limits)` with the requested capacity (default 0).
An error means no usable handle is produced. -/
def jsConstruct (args : CtorArgs) : Except String Engine :=
  match args with
  | .bad => .error "Pass args as named objects: dimensions: uint, capacity: uint, metric: str"
  | .params p =>
    if ¬ jsParamsLossless p then .error "Arguments must be unsigned integers"
    else
      let quant := match p.quantization with
        | none => some "f32"
        | some q => scalar_kind_from_name q
      match quant with
      | none => .error ("Unknown scalar kind: " ++ p.quantization.getD "")
      | some _ =>
        let metr := match p.metric with
          | none => some "ip"
          | some m => metric_from_name m
        match metr with
        | none => .error ("Unknown metric kind: " ++ p.metric.getD "")
        | some _ =>
          .ok { dims := (p.dimensions.getD 0).toNat, keys := [],
                cap := (p.capacity.getD 0).toNat, ioError := none }

/-! ## Rust binding (`src/rust/lib.cpp`) -/

/-- The `Matches` value returned over the cxx bridge: two growable
vectors. -/
structure Matches where
  keys : List Nat
  distances : List Int
deriving Repr, DecidableEq

/-- `Index::add` (rust lib.cpp:14): pass-through to the engine, raising
the engine's error if any. -/
def rustAdd (e : Engine) (key : Nat) (vector : List Int) : Except String Engine :=
  let r := e.add key vector
  match r.1.error with
  | some m => .error m
  | none => .ok r.2

/-- `Index::remove` (rust lib.cpp:16-20): raises the engine's error if
any, otherwise returns `result.completed`. -/
def rustRemove (e : Engine) (key : Nat) : Except String (Bool × Engine) :=
  let r := e.remove key
  match r.1.error with
  | some m => .error m
  | none => .ok (r.1.completed, r.2)

/-- `Index::contains` (rust lib.cpp:28): pure read. -/
def rustContains (e : Engine) (key : Nat) : Bool := e.contains key

/-- The two buffers of `Index::search` just before the engine fills them
(rust lib.cpp:32-35): `count` zeros pushed into each. -/
def rustSearchInitialBuffers (count : Nat) : List Nat × List Int :=
  (List.replicate count 0, List.replicate count 0)

/-- `Index::search` (rust lib.cpp:30-42): zero-fills two buffers of
length `count`, invokes the engine, raises its error if any, dumps the
matches into the buffers, and truncates both to the reported count. -/
def rustSearch (e : Engine) (vector : List Int) (count : Nat) : Except String Matches :=
  let bufs := rustSearchInitialBuffers count
  let result := e.search vector count
  match result.error with
  | some m => .error m
  | none =>
    let dumped := result.dump_to bufs.1 bufs.2
    .ok { keys := dumped.2.1.take dumped.1, distances := dumped.2.2.take dumped.1 }

/-- `Index::reserve` (rust lib.cpp:44): unchecked pass-through. -/
def rustReserve (e : Engine) (capacity : Nat) (allocOk : Bool) : Engine :=
  (e.reserve capacity allocOk).2

/-- `Index::save` (rust lib.cpp:51): pass-through; the engine result's
`error.raise()` surfaces the engine's message as an exception. -/
def rustSave (e : Engine) (path : String) : Except String Unit :=
  match (e.save path).error with
  | some m => .error m
  | none => .ok ()

/-- `Index::load` (rust lib.cpp:52). -/
def rustLoad (e : Engine) (path : String) : Except String Unit :=
  match (e.load path).error with
  | some m => .error m
  | none => .ok ()

/-- `Index::view` (rust lib.cpp:53). -/
def rustView (e : Engine) (path : String) : Except String Unit :=
  match (e.view path).error with
  | some m => .error m
  | none => .ok ()

/-! ## Helper lemmas -/

/-- Number of `reserve` invocations in an engine-call trace. -/
def reserveCount (calls : List EngineCall) : Nat :=
  (calls.filter fun c => match c with | .reserveC _ => true | _ => false).length

theorem reserveCount_nil : reserveCount [] = 0 := rfl

theorem reserveCount_append (a b : List EngineCall) :
    reserveCount (a ++ b) = reserveCount a + reserveCount b := by
  unfold reserveCount
  rw [List.filter_append, List.length_append]

theorem reserveCount_cons_reserve (n : Nat) (rest : List EngineCall) :
    reserveCount (.reserveC n :: rest) = 1 + reserveCount rest := by
  unfold reserveCount
  simp [List.filter_cons, Nat.add_comm]

theorem ceil2From_le (fuel n acc : Nat) (h : n ≤ 2 ^ fuel * acc) :
    n ≤ ceil2From fuel n acc := by
  induction fuel generalizing acc with
  | zero => simpa using h
  | succ fuel ih =>
    unfold ceil2From
    split
    · assumption
    · apply ih
      calc n ≤ 2 ^ (fuel + 1) * acc := h
        _ = 2 ^ fuel * (2 * acc) := by ring

theorem ceil2From_pow2 (fuel n : Nat) (acc : Nat) (h : ∃ j, acc = 2 ^ j) :
    ∃ j, ceil2From fuel n acc = 2 ^ j := by
  induction fuel generalizing acc with
  | zero => simpa using h
  | succ fuel ih =>
    unfold ceil2From
    split
    · exact h
    · apply ih
      obtain ⟨j, rfl⟩ := h
      exact ⟨j + 1, by ring⟩

/-- The growth policy reserves at least what is asked. -/
theorem le_ceil2 (n : Nat) : n ≤ ceil2 n := by
  unfold ceil2
  split
  · omega
  · exact ceil2From_le n n 1 (by simpa using (Nat.lt_two_pow n).le)

/-- The growth policy produces a power of two for a positive target. -/
theorem ceil2_pow2 (n : Nat) (h : n ≠ 0) : ∃ j, ceil2 n = 2 ^ j := by
  unfold ceil2
  rw [if_neg h]
  exact ceil2From_pow2 n n 1 ⟨0, rfl⟩

theorem engineAdd_cap (e : Engine) (k : Nat) (v : List Int) :
    (e.add k v).2.cap = e.cap := by
  unfold Engine.add
  split
  · split <;> rfl
  · rfl

theorem engineAdd_dims (e : Engine) (k : Nat) (v : List Int) :
    (e.add k v).2.dims = e.dims := by
  unfold Engine.add
  split
  · split <;> rfl
  · rfl

theorem engineAdd_keys (e : Engine) (k : Nat) (v : List Int) :
    ∃ t, (e.add k v).2.keys = e.keys ++ t := by
  unfold Engine.add
  split
  · split
    · exact ⟨[], by simp⟩
    · exact ⟨[k], rfl⟩
  · exact ⟨[], by simp⟩

theorem jsAddOne_cap (d : Nat) (k : Int) (v : List Int) (e : Engine) :
    (jsAddOne d k v e).engine.cap = e.cap := by
  unfold jsAddOne
  split
  · rfl
  · split
    · rfl
    · cases h : ((e.add k.toNat v).1).error <;> simp [h, engineAdd_cap]

theorem jsAddOne_keys (d : Nat) (k : Int) (v : List Int) (e : Engine) :
    ∃ t, (jsAddOne d k v e).engine.keys = e.keys ++ t := by
  unfold jsAddOne
  split
  · exact ⟨[], by simp⟩
  · split
    · exact ⟨[], by simp⟩
    · cases h : ((e.add k.toNat v).1).error <;> simp [h] <;> exact engineAdd_keys e k.toNat v

theorem jsAddOne_calls (d : Nat) (k : Int) (v : List Int) (e : Engine) :
    (jsAddOne d k v e).calls = [] ∨ (jsAddOne d k v e).calls = [.addC k.toNat v] := by
  unfold jsAddOne
  split
  · exact Or.inl rfl
  · split
    · exact Or.inl rfl
    · cases h : ((e.add k.toNat v).1).error <;> simp [h]

theorem jsAddOne_reserveCount (d : Nat) (k : Int) (v : List Int) (e : Engine) :
    reserveCount (jsAddOne d k v e).calls = 0 := by
  rcases jsAddOne_calls d k v e with h | h <;> rw [h] <;> rfl

theorem jsAddLoop_cap (d : Nat) (ps : List (Int × List Int)) (e : Engine) :
    (jsAddLoop d ps e).engine.cap = e.cap := by
  induction ps generalizing e with
  | nil => rfl
  | cons p rest ih =>
    obtain ⟨k, v⟩ := p
    show (jsAddLoop d rest (jsAddOne d k v e).engine).engine.cap = e.cap
    rw [ih, jsAddOne_cap]

theorem jsAddLoop_keys (d : Nat) (ps : List (Int × List Int)) (e : Engine) :
    ∃ t, (jsAddLoop d ps e).engine.keys = e.keys ++ t := by
  induction ps generalizing e with
  | nil => exact ⟨[], by simp [jsAddLoop]⟩
  | cons p rest ih =>
    obtain ⟨k, v⟩ := p
    obtain ⟨t1, h1⟩ := jsAddOne_keys d k v e
    obtain ⟨t2, h2⟩ := ih (jsAddOne d k v e).engine
    exact ⟨t1 ++ t2, by
      show (jsAddLoop d rest (jsAddOne d k v e).engine).engine.keys = _
      rw [h2, h1, List.append_assoc]⟩

theorem jsAddLoop_mem (d : Nat) (ps : List (Int × List Int)) (e : Engine)
    (x : Nat) (h : x ∈ e.keys) : x ∈ (jsAddLoop d ps e).engine.keys := by
  obtain ⟨t, ht⟩ := jsAddLoop_keys d ps e
  rw [ht]
  exact List.mem_append_left t h

theorem jsAddLoop_reserveCount (d : Nat) (ps : List (Int × List Int)) (e : Engine) :
    reserveCount (jsAddLoop d ps e).calls = 0 := by
  induction ps generalizing e with
  | nil => rfl
  | cons p rest ih =>
    obtain ⟨k, v⟩ := p
    show reserveCount ((jsAddOne d k v e).calls ++
      (jsAddLoop d rest (jsAddOne d k v e).engine).calls) = 0
    rw [reserveCount_append, jsAddOne_reserveCount, ih]

theorem jsAddLoop_cons (d : Nat) (k : Int) (v : List Int)
    (rest : List (Int × List Int)) (e : Engine) :
    jsAddLoop d ((k, v) :: rest) e =
      ⟨(jsAddLoop d rest (jsAddOne d k v e).engine).engine,
       (jsAddOne d k v e).errors ++ (jsAddLoop d rest (jsAddOne d k v e).engine).errors,
       (jsAddOne d k v e).calls ++ (jsAddLoop d rest (jsAddOne d k v e).engine).calls⟩ := rfl

theorem jsAddOne_badkey (d : Nat) (k : Int) (v : List Int) (e : Engine)
    (h : ¬ uint64Lossless k) :
    jsAddOne d k v e = ⟨e, ["Keys must be unsigned integers"], []⟩ := by
  unfold jsAddOne
  rw [if_pos h]

theorem jsAddOne_baddims (d : Nat) (k : Int) (v : List Int) (e : Engine)
    (hk : uint64Lossless k) (hv : v.length ≠ d) :
    jsAddOne d k v e = ⟨e, ["Wrong number of dimensions"], []⟩ := by
  unfold jsAddOne
  rw [if_neg (by simpa using hk), if_pos hv]

theorem jsAddOne_valid_calls (d : Nat) (k : Int) (v : List Int) (e : Engine)
    (hk : uint64Lossless k) (hv : v.length = d) :
    (jsAddOne d k v e).calls = [.addC k.toNat v] := by
  unfold jsAddOne
  rw [if_neg (by simpa using hk), if_neg (by simpa using hv)]
  cases h : ((e.add k.toNat v).1).error <;> simp [h]

theorem jsAddOne_valid_success (d : Nat) (k : Int) (v : List Int) (e : Engine)
    (hk : uint64Lossless k) (hv : v.length = d)
    (hroom : e.keys.length < e.cap) (hfresh : ¬ e.keys.contains k.toNat) :
    jsAddOne d k v e =
      ⟨{ e with keys := e.keys ++ [k.toNat] }, [], [.addC k.toNat v]⟩ := by
  have hadd : e.add k.toNat v = ({ error := none }, { e with keys := e.keys ++ [k.toNat] }) := by
    unfold Engine.add
    rw [if_pos hroom, if_neg (by simpa using hfresh)]
  unfold jsAddOne
  rw [if_neg (by simpa using hk), if_neg (by simpa using hv)]
  simp [hadd]

theorem jsAddOne_engine_error (d : Nat) (k : Int) (v : List Int) (e : Engine)
    (hk : uint64Lossless k) (hv : v.length = d) (msg : String)
    (h : ((e.add k.toNat v).1).error = some msg) :
    (jsAddOne d k v e).errors = [msg] := by
  unfold jsAddOne
  rw [if_neg (by simpa using hk), if_neg (by simpa using hv)]
  simp [h]

/-! ## Claims -/

/-- C1: for a single-element add, if `size + 1 >= capacity` before the
insert, the layer reserves `next_power_of_two(size + 1)` before invoking
the engine's `add`; for a batch add of `N` elements, if
`size + N >= capacity`, the layer reserves `next_power_of_two(size + N)`
exactly once before the loop (never per element, and no reservation at
all when growth is not required), so after a batch add the capacity is
`≥ N` and is a power of two whenever growth was required. -/
theorem c1_capacity_governance (e : Engine) (key : Int) (vec : List Int)
    (keys : List Int) (vecs : List (List Int))
    (hlen : keys.length = vecs.length) (hpos : 0 < keys.length) :
    (e.size + 1 ≥ e.capacity →
      (jsAdd true e (.single key vec)).calls.head? =
        some (.reserveC (ceil2 (e.size + 1))) ∧
      reserveCount (jsAdd true e (.single key vec)).calls = 1) ∧
    (e.size + keys.length ≥ e.capacity →
      (jsAdd true e (.batch keys vecs)).calls.head? =
        some (.reserveC (ceil2 (e.size + keys.length))) ∧
      reserveCount (jsAdd true e (.batch keys vecs)).calls = 1 ∧
      (jsAdd true e (.batch keys vecs)).engine.capacity ≥ keys.length ∧
      (∃ m, (jsAdd true e (.batch keys vecs)).engine.capacity = 2 ^ m)) ∧
    (¬ e.size + keys.length ≥ e.capacity →
      reserveCount (jsAdd true e (.batch keys vecs)).calls = 0) := by
  have hne : ¬ keys.length ≠ vecs.length := by simpa using hlen
  refine ⟨?_, ?_, ?_⟩
  · intro h
    have e1 : jsAdd true e (.single key vec) =
        ⟨(jsAddOne e.dims key vec { e with cap := ceil2 (e.size + 1) }).engine,
         (jsAddOne e.dims key vec { e with cap := ceil2 (e.size + 1) }).errors,
         .reserveC (ceil2 (e.size + 1)) ::
           (jsAddOne e.dims key vec { e with cap := ceil2 (e.size + 1) }).calls⟩ := by
      simp only [jsAdd]
      rw [if_pos h]
      rfl
    rw [e1]
    exact ⟨rfl, by rw [reserveCount_cons_reserve, jsAddOne_reserveCount]⟩
  · intro h
    have e2 : jsAdd true e (.batch keys vecs) =
        ⟨(jsAddLoop e.dims (keys.zip vecs)
            { e with cap := ceil2 (e.size + keys.length) }).engine,
         (jsAddLoop e.dims (keys.zip vecs)
            { e with cap := ceil2 (e.size + keys.length) }).errors,
         .reserveC (ceil2 (e.size + keys.length)) ::
           (jsAddLoop e.dims (keys.zip vecs)
             { e with cap := ceil2 (e.size + keys.length) }).calls⟩ := by
      simp only [jsAdd]
      rw [if_neg hne, if_pos h]
      rfl
    rw [e2]
    refine ⟨rfl, by rw [reserveCount_cons_reserve, jsAddLoop_reserveCount], ?_, ?_⟩
    · show (jsAddLoop e.dims (keys.zip vecs)
        { e with cap := ceil2 (e.size + keys.length) }).engine.cap ≥ keys.length
      rw [jsAddLoop_cap]
      show ceil2 (e.size + keys.length) ≥ keys.length
      have := le_ceil2 (e.size + keys.length)
      omega
    · show ∃ m, (jsAddLoop e.dims (keys.zip vecs)
        { e with cap := ceil2 (e.size + keys.length) }).engine.cap = 2 ^ m
      rw [jsAddLoop_cap]
      show ∃ m, ceil2 (e.size + keys.length) = 2 ^ m
      exact ceil2_pow2 (e.size + keys.length) (by omega)
  · intro h
    have e3 : jsAdd true e (.batch keys vecs) =
        jsAddLoop e.dims (keys.zip vecs) e := by
      simp only [jsAdd]
      rw [if_neg hne, if_neg h]
    rw [e3, jsAddLoop_reserveCount]

/-- Witness for C1 at a growth-requiring concrete instance. -/
theorem c1_capacity_governance_witness :
    (jsAdd true ⟨1, [], 0, none⟩ (.single 7 [0])).calls.head? =
      some (.reserveC (ceil2 ((⟨1, [], 0, none⟩ : Engine).size + 1))) ∧
    reserveCount (jsAdd true ⟨1, [], 0, none⟩ (.batch [1, 2] [[0], [0]])).calls = 1 ∧
    (jsAdd true ⟨1, [], 0, none⟩ (.batch [1, 2] [[0], [0]])).engine.capacity ≥
      ([1, 2] : List Int).length ∧
    (∃ m, (jsAdd true ⟨1, [], 0, none⟩ (.batch [1, 2] [[0], [0]])).engine.capacity = 2 ^ m) := by
  have h := c1_capacity_governance ⟨1, [], 0, none⟩ 7 [0] [1, 2] [[0], [0]] rfl (by decide)
  exact ⟨(h.1 (by decide)).1, (h.2.1 (by decide)).2.1, (h.2.1 (by decide)).2.2.1,
    (h.2.1 (by decide)).2.2.2⟩

/-- The Rust `search` always succeeds in the model and returns exactly
the engine's matches, the zero padding having been truncated away. -/
theorem rustSearch_ok_eq (e : Engine) (v : List Int) (k : Nat) :
    rustSearch e v k = .ok { keys := (e.search v k).matched.map Prod.fst,
                             distances := (e.search v k).matched.map Prod.snd } := by
  have h1 : ((e.search v k).matched.map Prod.fst ++
      (List.replicate k (0 : Nat)).drop (e.search v k).matched.length).take
        (e.search v k).matched.length = (e.search v k).matched.map Prod.fst :=
    List.take_left' (by simp)
  have h2 : ((e.search v k).matched.map Prod.snd ++
      (List.replicate k (0 : Int)).drop (e.search v k).matched.length).take
        (e.search v k).matched.length = (e.search v k).matched.map Prod.snd :=
    List.take_left' (by simp)
  show Except.ok _ = _
  dsimp only [EngineSearchResult.dump_to, rustSearchInitialBuffers]
  rw [h1, h2]

/-- The engine never reports more matches than requested. -/
theorem engineSearch_count_le (e : Engine) (v : List Int) (k : Nat) :
    (e.search v k).matched.length ≤ k := by
  simp [Engine.search]

/-- The validated JS `Search` returns the full-length buffers and the
actual count. -/
theorem jsSearch_good_eq (e : Engine) (vi : List Int) (ki : Int)
    (hk : uint64Lossless ki) (hd : vi.length = e.dims) :
    jsSearch e (.good vi ki) =
      ⟨some ((e.search vi ki.toNat).matched.map Prod.fst ++
               (List.replicate ki.toNat 0).drop (e.search vi ki.toNat).matched.length,
             (e.search vi ki.toNat).matched.map Prod.snd ++
               (List.replicate ki.toNat 0).drop (e.search vi ki.toNat).matched.length,
             (e.search vi ki.toNat).matched.length),
       [], [.searchC vi ki.toNat]⟩ := by
  simp only [jsSearch]
  rw [if_neg (by simp [Engine.dimensions, hd]), if_neg (by simpa using hk)]
  rfl

/-- C2 as stated is false on the JavaScript binding: `Search` returns the
keys and distances buffers at their allocated length `k`, not truncated
to `count`; at this concrete input the engine reports `count = 1` but
both returned buffers have length 2. -/
theorem c2_counterexample :
    (jsSearch ⟨1, [5], 2, none⟩ (.good [0] 2)).result = some ([5, 0], [0, 0], 1) ∧
    ([5, 0] : List Nat).length ≠ 1 := by decide

/-- C2 amended: the Rust binding truncates both buffers to the reported
count; the JavaScript binding instead returns both buffers at their
allocated length `k` together with a `count ≤ k` field reporting the
actual number of matches. -/
theorem c2_amended_search_buffers (e : Engine) (v : List Int) (k : Nat)
    (vi : List Int) (ki : Int) (hk : uint64Lossless ki) (hd : vi.length = e.dims) :
    (∀ m, rustSearch e v k = .ok m →
       m.keys.length = m.distances.length ∧ m.keys.length ≤ k) ∧
    (∀ ks ds c, (jsSearch e (.good vi ki)).result = some (ks, ds, c) →
       ks.length = ki.toNat ∧ ds.length = ki.toNat ∧ c ≤ ki.toNat) := by
  constructor
  · intro m h
    rw [rustSearch_ok_eq] at h
    injection h with h
    subst h
    refine ⟨by simp, ?_⟩
    simpa using engineSearch_count_le e v k
  · intro ks ds c h
    rw [jsSearch_good_eq e vi ki hk hd] at h
    have hc := engineSearch_count_le e vi ki.toNat
    injection h with h
    rw [Prod.ext_iff] at h
    obtain ⟨h1, h23⟩ := h
    rw [Prod.ext_iff] at h23
    obtain ⟨h2, h3⟩ := h23
    dsimp only at h1 h2 h3
    subst h1
    subst h2
    subst h3
    refine ⟨?_, ?_, hc⟩
    all_goals simp
    all_goals omega

/-- Witness for the amended C2 at a concrete search with `count < k`. -/
theorem c2_amended_search_buffers_witness :
    (([5] : List Nat).length = ([0] : List Int).length ∧ ([5] : List Nat).length ≤ 2) ∧
    (([5, 0] : List Nat).length = (2 : Int).toNat ∧
     ([0, 0] : List Int).length = (2 : Int).toNat ∧ 1 ≤ (2 : Int).toNat) := by
  have h := c2_amended_search_buffers ⟨1, [5], 2, none⟩ [0] 2 [0] 2 (by decide) rfl
  exact ⟨h.1 ⟨[5], [0]⟩ rfl, h.2 [5, 0] [0, 0] 1 rfl⟩

/-- Every engine invocation `jsAddOne` makes keeps the reserved capacity,
and its possible error messages are fixed; in particular it never throws
the binding's out-of-memory message. -/
theorem jsAddOne_no_oom (d : Nat) (k : Int) (v : List Int) (e : Engine) :
    "Out of memory!" ∉ (jsAddOne d k v e).errors := by
  unfold jsAddOne
  split
  · simp
  · split
    · simp
    · cases h : ((e.add k.toNat v).1).error with
      | none => simp [h]
      | some msg =>
        have : msg = "Duplicate keys not allowed" ∨
            msg = "Reserve capacity ahead of insertions" := by
          unfold Engine.add at h
          split at h
          · split at h <;> simp_all
          · simp_all
        rcases this with rfl | rfl <;> simp [h]

theorem engineReserve_keys (e : Engine) (n : Nat) (b : Bool) :
    (e.reserve n b).2.keys = e.keys := by
  unfold Engine.reserve
  split <;> rfl

theorem engineReserve_dims (e : Engine) (n : Nat) (b : Bool) :
    (e.reserve n b).2.dims = e.dims := by
  unfold Engine.reserve
  split <;> rfl

/-- C3 as stated is false on the single-add path: at this input the
reservation fails (the allocation oracle is `false`), yet the operation
does not fail with an out-of-memory error — the single-add path of
`Index::Add` discards the result of `reserve` — and the element is even
inserted, because the pre-existing capacity sufficed. -/
theorem c3_counterexample :
    (Engine.reserve ⟨1, [], 1, none⟩
      (ceil2 ((⟨1, [], 1, none⟩ : Engine).size + 1)) false).1 = false ∧
    jsAdd false ⟨1, [], 1, none⟩ (.single 7 [0]) =
      ⟨⟨1, [7], 1, none⟩, [], [.reserveC 1, .addC 7 [0]]⟩ := by decide

/-- C3 amended: for a batch add, a failed reservation aborts the
operation with the out-of-memory error, no element is inserted and the
engine is unchanged; for a single add the reservation's result is
discarded and the engine's `add` is invoked regardless, so no
out-of-memory error is thrown by the binding. -/
theorem c3_amended_reserve_failure (e : Engine) (keys : List Int)
    (vecs : List (List Int)) (key : Int) (vec : List Int)
    (hlen : keys.length = vecs.length) (hg : e.size + keys.length ≥ e.capacity)
    (hk : uint64Lossless key) (hv : vec.length = e.dims) :
    jsAdd false e (.batch keys vecs) =
      ⟨e, ["Out of memory!"], [.reserveC (ceil2 (e.size + keys.length))]⟩ ∧
    (e.size + 1 ≥ e.capacity →
      (jsAdd false e (.single key vec)).calls =
        [.reserveC (ceil2 (e.size + 1)), .addC key.toNat vec] ∧
      "Out of memory!" ∉ (jsAdd false e (.single key vec)).errors) := by
  have hne : ¬ keys.length ≠ vecs.length := by simpa using hlen
  constructor
  · simp only [jsAdd]
    rw [if_neg hne, if_pos hg]
    rfl
  · intro ht
    have e1 : jsAdd false e (.single key vec) =
        ⟨(jsAddOne e.dims key vec e).engine,
         (jsAddOne e.dims key vec e).errors,
         .reserveC (ceil2 (e.size + 1)) :: (jsAddOne e.dims key vec e).calls⟩ := by
      simp only [jsAdd]
      rw [if_pos ht]
      rfl
    rw [e1]
    refine ⟨?_, by simpa using jsAddOne_no_oom e.dims key vec e⟩
    rw [jsAddOne_valid_calls e.dims key vec e hk hv]

/-- Witness for the amended C3 at a concrete instance. -/
theorem c3_amended_reserve_failure_witness :
    jsAdd false ⟨1, [], 0, none⟩ (.batch [1] [[0]]) =
      ⟨⟨1, [], 0, none⟩, ["Out of memory!"],
       [.reserveC (ceil2 ((⟨1, [], 0, none⟩ : Engine).size + 1))]⟩ ∧
    (jsAdd false ⟨1, [], 0, none⟩ (.single 7 [0])).calls =
      [.reserveC (ceil2 ((⟨1, [], 0, none⟩ : Engine).size + 1)), .addC (7 : Int).toNat [0]] ∧
    "Out of memory!" ∉ (jsAdd false ⟨1, [], 0, none⟩ (.single 7 [0])).errors := by
  have h := c3_amended_reserve_failure ⟨1, [], 0, none⟩ [1] [[0]] 7 [0]
    rfl (by decide) (by decide) rfl
  exact ⟨by simpa using h.1, (h.2 (by decide)).1, (h.2 (by decide)).2⟩

/-- C4 as stated is false for `add`: at this input (single add, vector of
length 1 against dimensionality 2, growth condition holding) the call
does fail with the dimension-mismatch type error and leaves `size()`
unchanged, but the engine IS invoked: its `reserve` runs before the
vector is validated, and the observable capacity changes from 0 to 1. -/
theorem c4_counterexample :
    jsAdd true ⟨2, [], 0, none⟩ (.single 1 [0]) =
      ⟨⟨2, [], 1, none⟩, ["Wrong number of dimensions"], [.reserveC 1]⟩ ∧
    (⟨2, [], 1, none⟩ : Engine).capacity ≠ (⟨2, [], 0, none⟩ : Engine).capacity := by decide

/-- C4 amended: a single add or a search with a mismatched vector length
fails with the dimension-mismatch type error and leaves `size()`
unchanged, and the engine's `add`/`search` is never invoked; in the add
path, however, the capacity reservation may still invoke the engine's
`reserve` before the vector is validated. -/
theorem c4_amended_dimension_mismatch (e : Engine) (key : Int) (vec : List Int)
    (v : List Int) (kk : Int) (allocOk : Bool)
    (hk : uint64Lossless key) (hvec : vec.length ≠ e.dims) (hv : v.length ≠ e.dims) :
    ((jsAdd allocOk e (.single key vec)).errors = ["Wrong number of dimensions"] ∧
     (∀ a w, EngineCall.addC a w ∉ (jsAdd allocOk e (.single key vec)).calls) ∧
     (jsAdd allocOk e (.single key vec)).engine.size = e.size) ∧
    jsSearch e (.good v kk) = ⟨none, ["Wrong number of dimensions"], []⟩ := by
  constructor
  · by_cases ht : e.size + 1 ≥ e.capacity
    · have e1 : jsAdd allocOk e (.single key vec) =
          ⟨(e.reserve (ceil2 (e.size + 1)) allocOk).2, ["Wrong number of dimensions"],
           [.reserveC (ceil2 (e.size + 1))]⟩ := by
        simp only [jsAdd]
        rw [if_pos ht,
          jsAddOne_baddims e.dims key vec (e.reserve (ceil2 (e.size + 1)) allocOk).2 hk hvec]
      rw [e1]
      refine ⟨rfl, by simp, ?_⟩
      show (e.reserve (ceil2 (e.size + 1)) allocOk).2.keys.length = e.keys.length
      rw [engineReserve_keys]
    · have e1 : jsAdd allocOk e (.single key vec) =
          ⟨e, ["Wrong number of dimensions"], []⟩ := by
        simp only [jsAdd]
        rw [if_neg ht, jsAddOne_baddims e.dims key vec e hk hvec]
      rw [e1]
      exact ⟨rfl, by simp, rfl⟩
  · simp only [jsSearch]
    rw [if_pos (by simpa [Engine.dimensions] using hv)]

/-- Witness for the amended C4 at a concrete instance. -/
theorem c4_amended_dimension_mismatch_witness :
    ((jsAdd true ⟨2, [], 0, none⟩ (.single 1 [0])).errors = ["Wrong number of dimensions"] ∧
     (∀ a w, EngineCall.addC a w ∉ (jsAdd true ⟨2, [], 0, none⟩ (.single 1 [0])).calls) ∧
     (jsAdd true ⟨2, [], 0, none⟩ (.single 1 [0])).engine.size =
       (⟨2, [], 0, none⟩ : Engine).size) ∧
    jsSearch ⟨2, [], 0, none⟩ (.good [0] 1) =
      ⟨none, ["Wrong number of dimensions"], []⟩ :=
  c4_amended_dimension_mismatch ⟨2, [], 0, none⟩ 1 [0] [0] 1 true
    (by decide) (by decide) (by decide)

/-- Skipping an invalid head element leaves the engine untouched for the
rest of the loop. -/
theorem jsAddLoop_cons_invalid (d : Nat) (k : Int) (v : List Int)
    (rest : List (Int × List Int)) (e : Engine)
    (hbad : ¬ uint64Lossless k ∨ v.length ≠ d) :
    (jsAddLoop d ((k, v) :: rest) e).engine = (jsAddLoop d rest e).engine := by
  rw [jsAddLoop_cons]
  rcases hbad with hb | hb
  · rw [jsAddOne_badkey d k v e hb]
  · by_cases hkb : uint64Lossless k
    · rw [jsAddOne_baddims d k v e hkb hb]
    · rw [jsAddOne_badkey d k v e hkb]

/-- A valid fresh element placed right after an invalid one is still
inserted by the batch loop. -/
theorem jsAddLoop_bad_then_good (d : Nat) (kb : Int) (vb : List Int)
    (kg : Int) (vg : List Int) (rest : List (Int × List Int)) (e : Engine)
    (hbad : ¬ uint64Lossless kb ∨ vb.length ≠ d)
    (hkg : uint64Lossless kg) (hvg : vg.length = d)
    (hroom : e.keys.length < e.cap) (hfresh : ¬ e.keys.contains kg.toNat) :
    kg.toNat ∈ (jsAddLoop d ((kb, vb) :: (kg, vg) :: rest) e).engine.keys := by
  rw [jsAddLoop_cons_invalid d kb vb ((kg, vg) :: rest) e hbad, jsAddLoop_cons,
    jsAddOne_valid_success d kg vg e hkg hvg hroom hfresh]
  exact jsAddLoop_mem d rest _ _ (by simp)

/-- C5: a batch add requires the keys and vectors arrays to have equal
length (unequal lengths fail with a type error before any engine call);
each element is validated independently and an element's failure does not
stop the loop, so a valid fresh element placed after an invalid one is
still inserted. -/
theorem c5_batch_independent_validation (e : Engine) :
    (∀ keys vecs, keys.length ≠ vecs.length →
        jsAdd true e (.batch keys vecs) =
          ⟨e, ["The number of keys must match the number of vectors"], []⟩) ∧
    (∀ d k v rest e2, ¬ uint64Lossless k →
        jsAddLoop d ((k, v) :: rest) e2 =
          ⟨(jsAddLoop d rest e2).engine,
           "Keys must be unsigned integers" :: (jsAddLoop d rest e2).errors,
           (jsAddLoop d rest e2).calls⟩) ∧
    (∀ d k v rest e2, uint64Lossless k → v.length ≠ d →
        jsAddLoop d ((k, v) :: rest) e2 =
          ⟨(jsAddLoop d rest e2).engine,
           "Wrong number of dimensions" :: (jsAddLoop d rest e2).errors,
           (jsAddLoop d rest e2).calls⟩) ∧
    (∀ kb vb kg vg kt vt, (kb :: kg :: kt : List Int).length = (vb :: vg :: vt).length →
        (¬ uint64Lossless kb ∨ vb.length ≠ e.dims) →
        uint64Lossless kg → vg.length = e.dims →
        ¬ e.keys.contains kg.toNat →
        kg.toNat ∈ (jsAdd true e (.batch (kb :: kg :: kt) (vb :: vg :: vt))).engine.keys) := by
  refine ⟨?_, ?_, ?_, ?_⟩
  · intro keys vecs h
    simp only [jsAdd]
    rw [if_pos h]
  · intro d k v rest e2 hb
    rw [jsAddLoop_cons, jsAddOne_badkey d k v e2 hb]
    rfl
  · intro d k v rest e2 hk hb
    rw [jsAddLoop_cons, jsAddOne_baddims d k v e2 hk hb]
    rfl
  · intro kb vb kg vg kt vt hlen hbad hkg hvg hfresh
    have hne : ¬ (kb :: kg :: kt : List Int).length = (vb :: vg :: vt).length → False :=
      fun hc => hc hlen
    by_cases ht : e.size + (kb :: kg :: kt : List Int).length ≥ e.capacity
    · have e1 : jsAdd true e (.batch (kb :: kg :: kt) (vb :: vg :: vt)) =
          ⟨(jsAddLoop e.dims ((kb :: kg :: kt).zip (vb :: vg :: vt))
              { e with cap := ceil2 (e.size + (kb :: kg :: kt : List Int).length) }).engine,
           (jsAddLoop e.dims ((kb :: kg :: kt).zip (vb :: vg :: vt))
              { e with cap := ceil2 (e.size + (kb :: kg :: kt : List Int).length) }).errors,
           .reserveC (ceil2 (e.size + (kb :: kg :: kt : List Int).length)) ::
             (jsAddLoop e.dims ((kb :: kg :: kt).zip (vb :: vg :: vt))
               { e with cap := ceil2 (e.size + (kb :: kg :: kt : List Int).length) }).calls⟩ := by
        simp only [jsAdd]
        rw [if_neg (by simpa using hlen), if_pos ht]
        rfl
      rw [e1]
      show kg.toNat ∈ (jsAddLoop e.dims ((kb, vb) :: (kg, vg) :: kt.zip vt) _).engine.keys
      apply jsAddLoop_bad_then_good e.dims kb vb kg vg (kt.zip vt) _ hbad hkg hvg
      · show e.keys.length < ceil2 (e.size + (kb :: kg :: kt : List Int).length)
        have h1 := le_ceil2 (e.size + (kb :: kg :: kt : List Int).length)
        have h2 : (kb :: kg :: kt : List Int).length = kt.length + 2 := by simp
        have h3 : e.size = e.keys.length := rfl
        omega
      · simpa using hfresh
    · have e1 : jsAdd true e (.batch (kb :: kg :: kt) (vb :: vg :: vt)) =
          jsAddLoop e.dims ((kb :: kg :: kt).zip (vb :: vg :: vt)) e := by
        simp only [jsAdd]
        rw [if_neg (by simpa using hlen), if_neg ht]
      rw [e1]
      show kg.toNat ∈ (jsAddLoop e.dims ((kb, vb) :: (kg, vg) :: kt.zip vt) e).engine.keys
      apply jsAddLoop_bad_then_good e.dims kb vb kg vg (kt.zip vt) e hbad hkg hvg
      · have h2 : (kb :: kg :: kt : List Int).length = kt.length + 2 := by simp
        unfold Engine.size Engine.capacity at ht
        omega
      · exact hfresh

/-- Witness for C5: the invalid key `-1` at the head of the batch does
not prevent the valid element with key 2 from being inserted. -/
theorem c5_batch_independent_validation_witness :
    (2 : Int).toNat ∈
      (jsAdd true ⟨1, [], 0, none⟩ (.batch [-1, 2] [[0], [0]])).engine.keys :=
  (c5_batch_independent_validation ⟨1, [], 0, none⟩).2.2.2 (-1) [0] 2 [0] [] []
    rfl (Or.inl (by decide)) (by decide) rfl (by decide)

/-- C6: a construction request whose metric name is not one of the eight
recognized names, or whose quantization name is not one of the five
recognized names, fails with a descriptive error, so no usable handle is
produced. -/
theorem c6_unrecognized_names (p : JsParams)
    (h : (∃ m, p.metric = some m ∧ metric_from_name m = none) ∨
         (∃ q, p.quantization = some q ∧ scalar_kind_from_name q = none)) :
    ∃ msg, jsConstruct (.params p) = .error msg := by
  by_cases hl : jsParamsLossless p
  · simp only [jsConstruct, if_neg (not_not_intro hl)]
    rcases h with ⟨m, hm, hpm⟩ | ⟨q, hq, hpq⟩
    · rw [hm]
      cases hq : p.quantization with
      | none => exact ⟨"Unknown metric kind: " ++ m, by simp [hpm]⟩
      | some q =>
        cases hsq : scalar_kind_from_name q with
        | none => exact ⟨"Unknown scalar kind: " ++ q, by simp [hsq]⟩
        | some sk => exact ⟨"Unknown metric kind: " ++ m, by simp [hsq, hpm]⟩
    · rw [hq]
      exact ⟨"Unknown scalar kind: " ++ q, by simp [hpq]⟩
  · exact ⟨"Arguments must be unsigned integers", by simp [jsConstruct, if_pos hl]⟩

/-- Witness for C6: the unrecognized metric name "dot" and unrecognized
quantization name "f99" each abort construction. -/
theorem c6_unrecognized_names_witness :
    (∃ msg, jsConstruct (.params ⟨some 3, some 10, none, none, none, none, some "dot"⟩) =
      .error msg) ∧
    (∃ msg, jsConstruct (.params ⟨some 3, some 10, none, none, none, some "f99", none⟩) =
      .error msg) :=
  ⟨c6_unrecognized_names ⟨some 3, some 10, none, none, none, none, some "dot"⟩
     (Or.inl ⟨"dot", rfl, rfl⟩),
   c6_unrecognized_names ⟨some 3, some 10, none, none, none, some "f99", none⟩
     (Or.inr ⟨"f99", rfl, rfl⟩)⟩

/-- C7: removing an absent key succeeds with `completed = false` (not an
error) and leaves `size()` unchanged; removing a present key succeeds
with `true`, decreases `size()` by one, and the key is no longer
contained — in both the JavaScript and the Rust binding. -/
theorem c7_remove_semantics (e : Engine) (key : Int)
    (hk : uint64Lossless key) (hnd : e.keys.Nodup) :
    (e.contains key.toNat = false →
       jsRemove e (.key key) = ⟨e, some false, [], [.removeC key.toNat]⟩ ∧
       rustRemove e key.toNat = .ok (false, e)) ∧
    (e.contains key.toNat = true →
       (jsRemove e (.key key)).result = some true ∧
       (jsRemove e (.key key)).errors = [] ∧
       (jsRemove e (.key key)).engine.size + 1 = e.size ∧
       (jsRemove e (.key key)).engine.contains key.toNat = false ∧
       rustRemove e key.toNat = .ok (true, (jsRemove e (.key key)).engine)) := by
  constructor
  · intro habs
    have hrem : e.remove key.toNat = ({ error := none, completed := false }, e) := by
      unfold Engine.remove
      rw [if_neg (by simp [Engine.contains] at habs ⊢; exact habs)]
    constructor
    · simp only [jsRemove]
      rw [if_neg (not_not_intro hk), hrem]
    · simp only [rustRemove]
      rw [hrem]
  · intro hpres
    have hmem : key.toNat ∈ e.keys := by
      simpa [Engine.contains] using hpres
    have hrem : e.remove key.toNat =
        ({ error := none, completed := true }, { e with keys := e.keys.erase key.toNat }) := by
      unfold Engine.remove
      rw [if_pos (by simpa [Engine.contains] using hpres)]
    have hjs : jsRemove e (.key key) =
        ⟨{ e with keys := e.keys.erase key.toNat }, some true, [], [.removeC key.toNat]⟩ := by
      simp only [jsRemove]
      rw [if_neg (not_not_intro hk), hrem]
    rw [hjs]
    refine ⟨rfl, rfl, ?_, ?_, ?_⟩
    · show (e.keys.erase key.toNat).length + 1 = e.keys.length
      exact List.length_erase_add_one hmem
    · show (e.keys.erase key.toNat).contains key.toNat = false
      simpa using hnd.not_mem_erase
    · simp only [rustRemove]
      rw [hrem]

/-- Witness for C7: an absent key (5 among [9]) and a present key (5
among [5]). -/
theorem c7_remove_semantics_witness :
    (jsRemove ⟨1, [9], 4, none⟩ (.key 5) = ⟨⟨1, [9], 4, none⟩, some false, [], [.removeC 5]⟩ ∧
     rustRemove ⟨1, [9], 4, none⟩ (5 : Int).toNat = .ok (false, ⟨1, [9], 4, none⟩)) ∧
    ((jsRemove ⟨1, [5], 4, none⟩ (.key 5)).result = some true ∧
     (jsRemove ⟨1, [5], 4, none⟩ (.key 5)).engine.size + 1 = (⟨1, [5], 4, none⟩ : Engine).size ∧
     (jsRemove ⟨1, [5], 4, none⟩ (.key 5)).engine.contains (5 : Int).toNat = false) := by
  have h1 := (c7_remove_semantics ⟨1, [9], 4, none⟩ 5 (by decide) (by decide)).1 (by decide)
  have h2 := (c7_remove_semantics ⟨1, [5], 4, none⟩ 5 (by decide) (by decide)).2 (by decide)
  exact ⟨⟨h1.1, h1.2⟩, h2.1, h2.2.2.1, h2.2.2.2.1⟩

/-- C8 as stated is false: the empty string is a string, so it passes the
`IsString` check of `Save` and is handed to the engine — the filesystem
is touched with the empty path instead of a type error being thrown. -/
theorem c8_counterexample :
    jsSave ⟨1, [], 0, none⟩ (.path "") = ([], [.saveC ""]) ∧
    jsLoad ⟨1, [], 0, none⟩ (.path "") = ([], [.loadC ""]) ∧
    jsView ⟨1, [], 0, none⟩ (.path "") = ([], [.viewC ""]) := by decide

/-- C8 amended: save, load, and view require a string path argument —
zero arguments or a non-string argument fail with a type error before
the engine is invoked — but any string is accepted, the empty string
included, and is passed through to the engine. -/
theorem c8_amended_path_arguments (e : Engine) (s : String) :
    (jsSave e .noArgs = (["Function expects a string path argument"], []) ∧
     jsSave e .nonstring = (["Function expects a string path argument"], []) ∧
     jsLoad e .noArgs = (["Function expects a string path argument"], []) ∧
     jsLoad e .nonstring = (["Function expects a string path argument"], []) ∧
     jsView e .noArgs = (["Function expects a string path argument"], []) ∧
     jsView e .nonstring = (["Function expects a string path argument"], [])) ∧
    ((jsSave e (.path s)).2 = [.saveC s] ∧
     (jsLoad e (.path s)).2 = [.loadC s] ∧
     (jsView e (.path s)).2 = [.viewC s]) := by
  refine ⟨⟨rfl, rfl, rfl, rfl, rfl, rfl⟩, ?_, ?_, ?_⟩ <;>
    cases h : e.ioError <;>
      simp [jsSave, jsLoad, jsView, Engine.save, Engine.load, Engine.view, h]

/-- C9: every failure signaled by an engine result object is surfaced
synchronously with the engine's message — in particular by save, load,
and view in both bindings, and by add — while the key-not-found outcome
of remove is reported as the boolean `false`, not as an error. -/
theorem c9_engine_error_propagation (e : Engine) (s : String) (m : String)
    (key : Int) (vec : List Int) (hk : uint64Lossless key) (hv : vec.length = e.dims) :
    (e.ioError = some m →
       jsSave e (.path s) = ([m], [.saveC s]) ∧
       jsLoad e (.path s) = ([m], [.loadC s]) ∧
       jsView e (.path s) = ([m], [.viewC s]) ∧
       rustSave e s = .error m ∧ rustLoad e s = .error m ∧ rustView e s = .error m) ∧
    (∀ msg, ((e.add key.toNat vec).1).error = some msg →
       (jsAddOne e.dims key vec e).errors = [msg] ∧
       rustAdd e key.toNat vec = .error msg) ∧
    (e.contains key.toNat = false →
       (jsRemove e (.key key)).errors = [] ∧
       (jsRemove e (.key key)).result = some false ∧
       rustRemove e key.toNat = .ok (false, e)) := by
  refine ⟨?_, ?_, ?_⟩
  · intro hio
    refine ⟨?_, ?_, ?_, ?_, ?_, ?_⟩ <;>
      simp [jsSave, jsLoad, jsView, rustSave, rustLoad, rustView,
        Engine.save, Engine.load, Engine.view, hio]
  · intro msg hmsg
    constructor
    · exact jsAddOne_engine_error e.dims key vec e hk hv msg hmsg
    · simp only [rustAdd]
      rw [hmsg]
  · intro habs
    have hrem : e.remove key.toNat = ({ error := none, completed := false }, e) := by
      unfold Engine.remove
      rw [if_neg (by simp [Engine.contains] at habs ⊢; exact habs)]
    have hjs : jsRemove e (.key key) = ⟨e, some false, [], [.removeC key.toNat]⟩ := by
      simp only [jsRemove]
      rw [if_neg (not_not_intro hk), hrem]
    rw [hjs]
    refine ⟨rfl, rfl, ?_⟩
    simp only [rustRemove]
    rw [hrem]

/-- Witness for C9: a persistence failure with message "disk full", an
engine add error at zero capacity, and a remove of an absent key. -/
theorem c9_engine_error_propagation_witness :
    (jsSave ⟨1, [], 0, some "disk full"⟩ (.path "f") = (["disk full"], [.saveC "f"]) ∧
     rustSave ⟨1, [], 0, some "disk full"⟩ "f" = .error "disk full") ∧
    (jsAddOne 1 1 [0] ⟨1, [], 0, some "disk full"⟩).errors =
      ["Reserve capacity ahead of insertions"] ∧
    ((jsRemove ⟨1, [], 0, some "disk full"⟩ (.key 1)).errors = [] ∧
     (jsRemove ⟨1, [], 0, some "disk full"⟩ (.key 1)).result = some false) := by
  have h := c9_engine_error_propagation ⟨1, [], 0, some "disk full"⟩ "f" "disk full" 1 [0]
    (by decide) rfl
  have h1 := h.1 rfl
  have h2 := h.2.1 "Reserve capacity ahead of insertions" rfl
  have h3 := h.2.2 (by decide)
  exact ⟨⟨h1.1, h1.2.2.2.1⟩, h2.1, h3.1, h3.2.1⟩

/-- C10: every `Matches` value returned by the Rust `search` has keys and
distances of equal length, that length is the engine-reported count and
never exceeds the requested count, and the buffers handed to the engine
are zero-initialized. -/
theorem c10_matches_invariant (e : Engine) (vector : List Int) (count : Nat) :
    rustSearchInitialBuffers count =
      (List.replicate count 0, List.replicate count 0) ∧
    ∀ m, rustSearch e vector count = .ok m →
      m.keys.length = m.distances.length ∧
      m.keys.length = (e.search vector count).matched.length ∧
      m.keys.length ≤ count := by
  refine ⟨rfl, ?_⟩
  intro m h
  rw [rustSearch_ok_eq] at h
  injection h with h
  subst h
  refine ⟨by simp, by simp, ?_⟩
  simpa using engineSearch_count_le e vector count

/-- Witness for C10 at a concrete search. -/
theorem c10_matches_invariant_witness :
    ([5] : List Nat).length = ([0] : List Int).length ∧
    ([5] : List Nat).length = ((⟨1, [5], 2, none⟩ : Engine).search [0] 2).matched.length ∧
    ([5] : List Nat).length ≤ 2 :=
  (c10_matches_invariant ⟨1, [5], 2, none⟩ [0] 2).2 ⟨[5], [0]⟩ rfl

end USearch
